import Mathlib

/-!
Shallow embedding of the contact-directory program (`main.py`): validated
field values (`Name`, `Phone`, `Birthday`), per-contact `Record`s, the
`AddressBook` mapping, and the upcoming-birthday query, together with the
proleptic-Gregorian date arithmetic of Python's `datetime.date` that the
query relies on.

Machine conventions of the embedding:
* Python strings are Lean `String`s (lists of characters); `str.isdigit`
  and the regex class `\d` are modelled by the decimal-digit test
  `Char.isDigit` (`'0'..'9'`), which is exact on ASCII input.
* Python exceptions become `Except String` results; a mutating method is a
  function returning the outcome paired with the (possibly updated) object,
  so that the state at the moment an exception propagates is explicit.
* `datetime.strptime(s, "%d.%m.%Y")` is modelled after CPython's
  `_strptime` regex `(3[01]|[12]\d|0[1-9]|[1-9]) \. (1[0-2]|0[1-9]|[1-9]) \. \d\d\d\d`
  (plus the trailing ` [1-9]` day alternative) with the full-match
  requirement, followed by the `datetime` constructor's calendar-validity
  check; `strftime("%d.%m.%Y")` zero-pads day and month to two digits and
  prints the year as a plain unpadded decimal numeral, as glibc does.
-/

namespace ContactDir

/-- A calendar date as held by `datetime.date`: plain year/month/day. -/
structure Date where
  year : Nat
  month : Nat
  day : Nat
deriving DecidableEq, Repr

/-- Gregorian leap-year rule, as `datetime`'s `_is_leap`. -/
def isLeap (y : Nat) : Bool :=
  y % 4 = 0 && (y % 100 ≠ 0 || y % 400 = 0)

/-- Length of a month, as `datetime`'s `_days_in_month`. -/
def daysInMonth (y m : Nat) : Nat :=
  if m = 2 then (if isLeap y then 29 else 28)
  else if m = 4 ∨ m = 6 ∨ m = 9 ∨ m = 11 then 30
  else 31

/-- Days in year `y` strictly before month `m`, as `datetime`'s
`_days_before_month` (cumulative table plus leap adjustment). -/
def daysBeforeMonth (y m : Nat) : Nat :=
  (match m with
   | 1 => 0 | 2 => 31 | 3 => 59 | 4 => 90 | 5 => 120 | 6 => 151
   | 7 => 181 | 8 => 212 | 9 => 243 | 10 => 273 | 11 => 304 | 12 => 334
   | _ => 365)
  + (if 2 < m ∧ isLeap y then 1 else 0)

/-- Days before January 1st of year `y`, as `datetime`'s `_days_before_year`.
(No `Nat`-subtraction truncation: `a*365 + a/4 ≥ a/100`.) -/
def daysBeforeYear (y : Nat) : Nat :=
  let a := y - 1
  a * 365 + a / 4 - a / 100 + a / 400

/-- `date.toordinal()`: day count with 0001-01-01 ↦ 1. -/
def toOrdinal (d : Date) : Nat :=
  daysBeforeYear d.year + daysBeforeMonth d.year d.month + d.day

/-- `date.weekday()`: Monday = 0 … Sunday = 6. -/
def weekday (d : Date) : Nat :=
  (toOrdinal d + 6) % 7

/-- The range and calendar checks of the `datetime.date` constructor
(`MINYEAR = 1`, `MAXYEAR = 9999`). -/
def isValidDate (y m d : Nat) : Bool :=
  1 ≤ y && y ≤ 9999 && 1 ≤ m && m ≤ 12 && 1 ≤ d && d ≤ daysInMonth y m

/-- `date.fromordinal` (`datetime`'s `_ord2ymd`); the month is recovered by
the equivalent search for the largest month whose day-prefix fits. -/
def fromOrdinal (n : Nat) : Date :=
  let n0 := n - 1
  let n400 := n0 / 146097
  let r1 := n0 % 146097
  let n100 := r1 / 36524
  let r2 := r1 % 36524
  let n4 := r2 / 1461
  let r3 := r2 % 1461
  let n1 := r3 / 365
  let r4 := r3 % 365
  let year := n400 * 400 + n100 * 100 + n4 * 4 + n1 + 1
  if n1 = 4 ∨ n100 = 4 then
    ⟨year - 1, 12, 31⟩
  else
    let month := (List.range' 1 12).foldl
      (fun acc m => if daysBeforeMonth year m ≤ r4 then m else acc) 1
    ⟨year, month, r4 - daysBeforeMonth year month + 1⟩

/-- `date + timedelta(days = n)` for `n ≥ 0`. -/
def addDays (d : Date) (n : Nat) : Date :=
  fromOrdinal (toOrdinal d + n)

/-- `date.replace(year = y)`: rebuilds the date with the new year, running
the constructor's validity check (this is where Feb 29 in a non-leap year
raises `ValueError`). -/
def replaceYear (d : Date) (y : Nat) : Except String Date :=
  if isValidDate y d.month d.day then .ok ⟨y, d.month, d.day⟩
  else .error "day is out of range for month"

/-- Numeric value of a decimal-digit character. -/
def cval (c : Char) : Nat := c.toNat - 48

/-- The decimal-digit character of `n % 10`-style small values. -/
def dChar (n : Nat) : Char := Char.ofNat (48 + n)

/-- Two-digit zero-padded rendering (`%d`, `%m`). -/
def pad2 (n : Nat) : List Char := [dChar (n / 10), dChar (n % 10)]

/-- Four digit characters of an at-most-four-digit number. -/
def pad4 (n : Nat) : List Char :=
  [dChar (n / 1000), dChar (n / 100 % 10), dChar (n / 10 % 10), dChar (n % 10)]

/-- Unpadded decimal numeral of a year, most significant digit first,
written out for the range `datetime` admits (`MINYEAR = 1` to
`MAXYEAR = 9999`, so at most four digits). -/
def natChars (n : Nat) : List Char :=
  if n < 10 then [dChar n]
  else if n < 100 then [dChar (n / 10), dChar (n % 10)]
  else if n < 1000 then [dChar (n / 100), dChar (n / 10 % 10), dChar (n % 10)]
  else pad4 n

/-- `date.strftime("%d.%m.%Y")` as CPython delegates it to the platform's
`strftime`: `%d` and `%m` zero-padded to two digits, `%Y` the plain
decimal numeral of the year with no padding (glibc behaviour; years below
1000 therefore print with fewer than four digits). -/
def formatDate (d : Date) : String :=
  String.mk (pad2 d.day ++ '.' :: pad2 d.month ++ '.' :: natChars d.year)

/-- The `%d` component of CPython's `_strptime` regex:
`3[0-1]|[1-2]\d|0[1-9]|[1-9]| [1-9]` (the last alternative is a space
followed by a digit), alternatives tried left to right. -/
def matchDay : List Char → Option (Nat × List Char)
  | c0 :: c1 :: rest =>
    if c0 = '3' && (c1 = '0' || c1 = '1') then some (30 + cval c1, rest)
    else if (c0 = '1' || c0 = '2') && c1.isDigit then
      some (10 * cval c0 + cval c1, rest)
    else if c0 = '0' && ('1' ≤ c1 && c1 ≤ '9') then some (cval c1, rest)
    else if '1' ≤ c0 && c0 ≤ '9' then some (cval c0, c1 :: rest)
    else if c0 = ' ' && ('1' ≤ c1 && c1 ≤ '9') then some (cval c1, rest)
    else none
  | [c0] => if '1' ≤ c0 && c0 ≤ '9' then some (cval c0, []) else none
  | [] => none

/-- The `%m` component of the regex: `1[0-2]|0[1-9]|[1-9]`. -/
def matchMonth : List Char → Option (Nat × List Char)
  | c0 :: c1 :: rest =>
    if c0 = '1' && (c1 = '0' || c1 = '1' || c1 = '2') then
      some (10 + cval c1, rest)
    else if c0 = '0' && ('1' ≤ c1 && c1 ≤ '9') then some (cval c1, rest)
    else if '1' ≤ c0 && c0 ≤ '9' then some (cval c0, c1 :: rest)
    else none
  | [c0] => if '1' ≤ c0 && c0 ≤ '9' then some (cval c0, []) else none
  | [] => none

/-- The literal `.` of the format string. -/
def matchDot : List Char → Option (List Char)
  | '.' :: rest => some rest
  | _ => none

/-- The `%Y` component of the regex: exactly four `\d`. -/
def matchYear4 : List Char → Option (Nat × List Char)
  | a :: b :: c :: d :: rest =>
    if a.isDigit && b.isDigit && c.isDigit && d.isDigit then
      some (1000 * cval a + 100 * cval b + 10 * cval c + cval d, rest)
    else none
  | _ => none

/-- `datetime.strptime(s, "%d.%m.%Y")` up to (but not including) the
`datetime` constructor: the regex match plus the "unconverted data
remains" full-match check. Returns `(day, month, year)`. -/
def strptimeDmy (cs : List Char) : Option (Nat × Nat × Nat) :=
  match matchDay cs with
  | none => none
  | some (d, cs1) =>
    match matchDot cs1 with
    | none => none
    | some cs2 =>
      match matchMonth cs2 with
      | none => none
      | some (m, cs3) =>
        match matchDot cs3 with
        | none => none
        | some cs4 =>
          match matchYear4 cs4 with
          | none => none
          | some (y, cs5) => if cs5 = [] then some (d, m, y) else none

/-- `Name`: plain value holder, no constraint (class `Name(Field)`). -/
structure Name where
  value : String
deriving DecidableEq, Repr

/-- `Phone`: value holder whose constructor enforces the format. -/
structure Phone where
  value : String
deriving DecidableEq, Repr

/-- `str.isdigit()`: nonempty and all characters digits (decimal model). -/
def pyIsDigit (cs : List Char) : Bool :=
  !cs.isEmpty && cs.all Char.isDigit

/-- `Phone.__init__`: `value.isdigit() and len(value) == 10` or
`ValueError`. The `isinstance(value, str)` test always holds here since the
argument is typed as a string. -/
def Phone.mk? (s : String) : Except String Phone :=
  if pyIsDigit s.data && s.length = 10 then .ok ⟨s⟩
  else .error "Phone number must be a 10-digit string of numbers."

/-- `Birthday`: value holder for the parsed `datetime.date`. -/
structure Birthday where
  value : Date
deriving DecidableEq, Repr

/-- `Birthday.__init__`: `datetime.strptime(value, "%d.%m.%Y").date()`,
re-raising any `ValueError` (regex mismatch, or the date constructor's
range check inside `strptime`) with the fixed message. -/
def Birthday.mk? (s : String) : Except String Birthday :=
  match strptimeDmy s.data with
  | some (d, m, y) =>
    if isValidDate y m d then .ok ⟨⟨y, m, d⟩⟩
    else .error "Invalid date format. Use DD.MM.YYYY"
  | none => .error "Invalid date format. Use DD.MM.YYYY"

/-- `Record`: a name, an ordered phone list, an optional birthday. -/
structure Record where
  name : Name
  phones : List Phone
  birthday : Option Birthday
deriving DecidableEq, Repr

/-- `Record(name)`. -/
def Record.make (name : String) : Record :=
  ⟨⟨name⟩, [], none⟩

/-- `Record.find_phone`: first phone whose stored value equals the text. -/
def Record.find_phone (r : Record) (phone_number : String) : Option Phone :=
  r.phones.find? (fun p => p.value = phone_number)

/-- `Record.add_phone`: `self.phones.append(Phone(phone_number))`; the
`Phone` constructor may raise first, in which case the list is untouched. -/
def Record.add_phone (r : Record) (phone_number : String) :
    Except String Unit × Record :=
  match Phone.mk? phone_number with
  | .error e => (.error e, r)
  | .ok p => (.ok (), { r with phones := r.phones ++ [p] })

/-- In-place overwrite of the value of the first phone equal to `old`
(the aliasing assignment `phone_to_edit.value = ...`). -/
def replaceFirstPhone : List Phone → String → String → List Phone
  | [], _, _ => []
  | p :: ps, old, nv =>
    if p.value = old then ⟨nv⟩ :: ps else p :: replaceFirstPhone ps old nv

/-- `Record.edit_phone`: find the old phone (else `ValueError` not-found),
construct the new `Phone` (may raise `ValueError` invalid-format before
any assignment), then overwrite the found phone's value in place. -/
def Record.edit_phone (r : Record) (old_phone_number new_phone_number : String) :
    Except String Unit × Record :=
  match r.find_phone old_phone_number with
  | none =>
    (.error ("Phone number " ++ old_phone_number ++ " not found."), r)
  | some _ =>
    match Phone.mk? new_phone_number with
    | .error e => (.error e, r)
    | .ok _ =>
      (.ok (), { r with
        phones := replaceFirstPhone r.phones old_phone_number new_phone_number })

/-- `Record.remove_phone`: `list.remove` of the found phone (first
occurrence), else `ValueError` not-found. -/
def Record.remove_phone (r : Record) (phone_number : String) :
    Except String Unit × Record :=
  match r.find_phone phone_number with
  | some p => (.ok (), { r with phones := r.phones.erase p })
  | none =>
    (.error ("Phone number " ++ phone_number ++ " not found."), r)

/-- The dynamically typed argument of `Record.add_birthday`: a Python
value that is a `str`, a `Birthday` instance, or anything else (the code
only ever inspects it through the two `isinstance` tests, so one
constructor stands for all remaining runtime values). -/
inductive BirthdayArg where
  | ofStr (s : String)
  | ofBirthday (b : Birthday)
  | otherValue
deriving DecidableEq, Repr

/-- `Record.add_birthday`: `if isinstance(birthday, str)` parse it (the
`Birthday` constructor may raise), `elif isinstance(birthday, Birthday)`
store it as is; any other value falls through both branches and the method
returns with no change. -/
def Record.add_birthday (r : Record) (birthday : BirthdayArg) :
    Except String Unit × Record :=
  match birthday with
  | .ofStr s =>
    match Birthday.mk? s with
    | .error e => (.error e, r)
    | .ok b => (.ok (), { r with birthday := some b })
  | .ofBirthday b => (.ok (), { r with birthday := some b })
  | .otherValue => (.ok (), r)

/-- `Record.__str__`. -/
def Record.str (r : Record) : String :=
  "Contact name: " ++ r.name.value ++ ", phones: "
    ++ String.intercalate "; " (r.phones.map Phone.value)
    ++ (match r.birthday with
        | some b => ", birthday: " ++ formatDate b.value
        | none => "")

/-- `AddressBook`: a `UserDict` from name text to `Record`, modelled as the
underlying insertion-ordered association list with unique keys. -/
structure AddressBook where
  data : List (String × Record)
deriving DecidableEq, Repr

/-- `dict.__setitem__`: overwrite in place if the key exists (keeping its
position), otherwise append. -/
def dictInsert : List (String × Record) → String → Record →
    List (String × Record)
  | [], k, v => [(k, v)]
  | (k', v') :: rest, k, v =>
    if k' = k then (k, v) :: rest else (k', v') :: dictInsert rest k v

/-- `AddressBook.add_record`: `self.data[record.name.value] = record`. -/
def AddressBook.add_record (book : AddressBook) (record : Record) :
    AddressBook :=
  ⟨dictInsert book.data record.name.value record⟩

/-- `AddressBook.find`: `self.data.get(name)`. -/
def AddressBook.find (book : AddressBook) (name : String) : Option Record :=
  (book.data.find? (fun p => p.1 = name)).map Prod.snd

/-- `AddressBook.delete`: `if name in self.data: del self.data[name]`. -/
def AddressBook.delete (book : AddressBook) (name : String) : AddressBook :=
  if book.data.any (fun p => p.1 = name) then
    ⟨book.data.eraseP (fun p => p.1 = name)⟩
  else book

/-- An element of the `get_upcoming_birthdays` result list:
`{"name": ..., "congratulation_date": ...}`. -/
structure UpcomingEntry where
  name : String
  congratulation_date : String
deriving DecidableEq, Repr

/-- `delta_days = (birthday_this_year - today).days`. -/
def deltaDays (occurrence today : Date) : Int :=
  (toOrdinal occurrence : Int) - (toOrdinal today : Int)

/-- One iteration of the `get_upcoming_birthdays` loop body for a single
record: skip records without a birthday; `bday.replace(year=today.year)`
(which may raise); the window test `0 <= delta_days <= days`; the weekend
shift `if weekday >= 5: date += timedelta(days = 7 - weekday)`; and the
`strftime` rendering of the emitted entry. -/
def upcomingEntriesFor (today : Date) (days : Nat) (record : Record) :
    Except String (List UpcomingEntry) :=
  match record.birthday with
  | none => .ok []
  | some b =>
    match replaceYear b.value today.year with
    | .error e => .error e
    | .ok birthday_this_year =>
      if 0 ≤ deltaDays birthday_this_year today ∧
          deltaDays birthday_this_year today ≤ (days : Int) then
        .ok [⟨record.name.value,
          formatDate (if 5 ≤ weekday birthday_this_year then
              addDays birthday_this_year (7 - weekday birthday_this_year)
            else birthday_this_year)⟩]
      else .ok []

/-- The `for record in self.data.values()` loop of
`get_upcoming_birthdays`, accumulating entries in iteration order; an
uncaught `ValueError` from any iteration aborts the whole call. -/
def upcomingLoop (today : Date) (days : Nat) :
    List Record → Except String (List UpcomingEntry)
  | [] => .ok []
  | r :: rs =>
    match upcomingEntriesFor today days r with
    | .error e => .error e
    | .ok es =>
      match upcomingLoop today days rs with
      | .error e => .error e
      | .ok rest => .ok (es ++ rest)

/-- The records of the book in dict iteration order (`self.data.values()`). -/
def AddressBook.records (book : AddressBook) : List Record :=
  book.data.map Prod.snd

/-- `AddressBook.get_upcoming_birthdays(days=7)`, with `today` passed
explicitly in place of `datetime.today().date()`. -/
def AddressBook.get_upcoming_birthdays (book : AddressBook) (today : Date)
    (days : Nat) : Except String (List UpcomingEntry) :=
  upcomingLoop today days book.records

/-! ### Helper lemmas -/

lemma isDigit_iff (c : Char) : c.isDigit = true ↔ '0' ≤ c ∧ c ≤ '9' := by
  simp only [Char.isDigit, ge_iff_le, Bool.and_eq_true, decide_eq_true_eq]
  exact Iff.rfl

lemma daysInMonth_le31 (y m : Nat) : daysInMonth y m ≤ 31 := by
  unfold daysInMonth
  split
  · split <;> omega
  · split <;> omega

/-! ### Claims -/

/-- Claim C1: `Phone` construction succeeds exactly for strings of length
10 whose characters are all decimal digits, storing the text verbatim, and
fails with the invalid-format error for every other string. -/
theorem C1_phone_validation (s : String) :
    (Phone.mk? s = .ok ⟨s⟩ ↔
      s.length = 10 ∧ ∀ c ∈ s.data, '0' ≤ c ∧ c ≤ '9') ∧
    (¬ (s.length = 10 ∧ ∀ c ∈ s.data, '0' ≤ c ∧ c ≤ '9') →
      Phone.mk? s = .error "Phone number must be a 10-digit string of numbers.") := by
  have hlen : s.length = s.data.length := rfl
  have hc : (pyIsDigit s.data && decide (s.length = 10)) = true ↔
      (s.length = 10 ∧ ∀ c ∈ s.data, '0' ≤ c ∧ c ≤ '9') := by
    simp only [pyIsDigit, Bool.and_eq_true, decide_eq_true_eq,
      List.all_eq_true, Bool.not_eq_eq_eq_not, Bool.not_false]
    constructor
    · rintro ⟨⟨-, hall⟩, hl⟩
      exact ⟨hl, fun c hmem => (isDigit_iff c).1 (hall c hmem)⟩
    · rintro ⟨hl, hall⟩
      refine ⟨⟨?_, fun c hmem => (isDigit_iff c).2 (hall c hmem)⟩, hl⟩
      have hlen10 : s.data.length = 10 := by omega
      cases hd : s.data with
      | nil => rw [hd] at hlen10; simp at hlen10
      | cons a l => rfl
  constructor
  · constructor
    · intro h
      unfold Phone.mk? at h
      split at h
      · next hcond => exact hc.1 hcond
      · cases h
    · intro h
      unfold Phone.mk?
      rw [if_pos (hc.2 h)]
  · intro h
    unfold Phone.mk?
    rw [if_neg (fun hcond => h (hc.1 hcond))]

/-- Claim C1, instantiated: a valid and an invalid concrete phone text. -/
theorem C1_phone_validation_witness :
    Phone.mk? "0123456789" = .ok ⟨"0123456789"⟩ ∧
    Phone.mk? "01234a6789" =
      .error "Phone number must be a 10-digit string of numbers." :=
  ⟨(C1_phone_validation "0123456789").1.2 (by decide),
   (C1_phone_validation "01234a6789").2 (by decide)⟩

/-- Claim C5: failing mutations leave the record unchanged — a failed
`add_phone` (invalid format) and a failed `edit_phone` (old phone absent,
or new text invalid) both leave the phone sequence exactly as it was. -/
theorem C5_failed_ops_preserve_state (r : Record)
    (s old_text new_text e₁ e₂ : String) :
    ((r.add_phone s).1 = .error e₁ → (r.add_phone s).2 = r) ∧
    ((r.edit_phone old_text new_text).1 = .error e₂ →
      (r.edit_phone old_text new_text).2 = r) := by
  constructor
  · intro h
    unfold Record.add_phone at h ⊢
    cases hm : Phone.mk? s
    · simp [hm]
    · simp [hm] at h
  · intro h
    unfold Record.edit_phone at h ⊢
    cases hf : r.find_phone old_text
    · simp [hf]
    · cases hm : Phone.mk? new_text
      · simp [hf, hm]
      · simp [hf, hm] at h

/-- Claim C5, instantiated: a record with one phone, hit with an invalid
`add_phone`, an `edit_phone` of a missing number, and an `edit_phone` to an
invalid number, keeps its state each time. -/
theorem C5_failed_ops_preserve_state_witness :
    ((Record.mk ⟨"John"⟩ [⟨"1234567890"⟩] none).add_phone "12ab").2 =
      Record.mk ⟨"John"⟩ [⟨"1234567890"⟩] none ∧
    ((Record.mk ⟨"John"⟩ [⟨"1234567890"⟩] none).edit_phone
        "9999999999" "5555555555").2 =
      Record.mk ⟨"John"⟩ [⟨"1234567890"⟩] none ∧
    ((Record.mk ⟨"John"⟩ [⟨"1234567890"⟩] none).edit_phone
        "1234567890" "12ab").2 =
      Record.mk ⟨"John"⟩ [⟨"1234567890"⟩] none :=
  ⟨(C5_failed_ops_preserve_state _ "12ab" "x" "y"
      "Phone number must be a 10-digit string of numbers." "e").1 rfl,
   (C5_failed_ops_preserve_state _ "z" "9999999999" "5555555555" "e"
      "Phone number 9999999999 not found.").2 rfl,
   (C5_failed_ops_preserve_state _ "z" "1234567890" "12ab" "e"
      "Phone number must be a 10-digit string of numbers.").2 rfl⟩

/-- Claim C10: `add_birthday` with an argument that is neither a string
nor a `Birthday` silently returns, leaving the record (in particular its
birthday field) unchanged. -/
theorem C10_ill_typed_birthday_ignored (r : Record) :
    (r.add_birthday .otherValue).1 = .ok () ∧
    (r.add_birthday .otherValue).2 = r :=
  ⟨rfl, rfl⟩

/-- The directory invariant: at most one entry per distinct name value. -/
def keysNodup (book : AddressBook) : Prop :=
  (book.data.map Prod.fst).Nodup

lemma keys_dictInsert (l : List (String × Record)) (k : String) (v : Record) :
    (dictInsert l k v).map Prod.fst =
      if k ∈ l.map Prod.fst then l.map Prod.fst else l.map Prod.fst ++ [k] := by
  induction l with
  | nil => simp [dictInsert]
  | cons p rest ih =>
    by_cases hk : p.1 = k
    · have hmem : k ∈ (p :: rest).map Prod.fst := by
        rw [List.map_cons, hk]
        exact List.mem_cons_self _ _
      simp [dictInsert, hk, hmem]
    · by_cases hmem : k ∈ rest.map Prod.fst
      · have hmem' : k ∈ (p :: rest).map Prod.fst := by
          rw [List.map_cons]
          exact List.mem_cons_of_mem _ hmem
        simp [dictInsert, hk, ih, hmem, hmem']
      · have hmem' : ¬ k ∈ (p :: rest).map Prod.fst := by
          rw [List.map_cons, List.mem_cons]
          rintro (h | h)
          · exact hk h.symm
          · exact hmem h
        have hk' : ¬ k = p.1 := fun h => hk h.symm
        simp [dictInsert, hk, ih, hmem, hmem', hk']

lemma mem_keys_dictInsert (l : List (String × Record)) (k a : String)
    (v : Record) :
    a ∈ (dictInsert l k v).map Prod.fst ↔ a ∈ l.map Prod.fst ∨ a = k := by
  rw [keys_dictInsert]
  split
  · next h => exact ⟨Or.inl, fun hh => hh.elim id (fun ha => ha ▸ h)⟩
  · simp [List.mem_append]

lemma nodup_dictInsert (l : List (String × Record)) (k : String) (v : Record)
    (h : (l.map Prod.fst).Nodup) :
    ((dictInsert l k v).map Prod.fst).Nodup := by
  induction l with
  | nil => simp [dictInsert]
  | cons p rest ih =>
    rw [List.map_cons, List.nodup_cons] at h
    by_cases hk : p.1 = k
    · simp only [dictInsert, if_pos hk, List.map_cons, List.nodup_cons]
      exact ⟨hk ▸ h.1, h.2⟩
    · simp only [dictInsert, if_neg hk, List.map_cons, List.nodup_cons]
      refine ⟨fun hmem => ?_, ih h.2⟩
      rcases (mem_keys_dictInsert rest k p.1 v).1 hmem with hm | hm
      · exact h.1 hm
      · exact hk hm

lemma find?_dictInsert_self (l : List (String × Record)) (k : String)
    (v : Record) :
    (dictInsert l k v).find? (fun p => p.1 = k) = some (k, v) := by
  induction l with
  | nil => simp [dictInsert]
  | cons p rest ih =>
    by_cases hk : p.1 = k
    · simp [dictInsert, hk]
    · simp [dictInsert, hk, List.find?_cons, ih]

lemma find?_dictInsert_other (l : List (String × Record)) (k n : String)
    (v : Record) (hn : n ≠ k) :
    (dictInsert l k v).find? (fun p => p.1 = n) =
      l.find? (fun p => p.1 = n) := by
  have hkn : ¬ k = n := fun h => hn h.symm
  induction l with
  | nil => simp [dictInsert, hkn]
  | cons p rest ih =>
    by_cases hk : p.1 = k
    · have hpn : ¬ p.1 = n := fun h => hn (h ▸ hk)
      simp [dictInsert, hk, hpn, hkn]
    · have hstep : dictInsert (p :: rest) k v = p :: dictInsert rest k v := by
        simp [dictInsert, hk]
      rw [hstep]
      by_cases hpn : p.1 = n
      · rw [List.find?_cons_of_pos _ (by simp [hpn]),
          List.find?_cons_of_pos _ (by simp [hpn])]
      · rw [List.find?_cons_of_neg _ (by simp [hpn]),
          List.find?_cons_of_neg _ (by simp [hpn]), ih]

/-- Claim C6: the directory holds at most one record per name and
`add_record` with an existing name fully replaces the prior record: the
key set stays duplicate-free, lookup of the name now yields exactly the
new record (the old phones and birthday are unreachable), and every other
name is untouched. -/
theorem C6_add_record_overwrites (book : AddressBook) (r : Record)
    (h : keysNodup book) :
    keysNodup (book.add_record r) ∧
    (book.add_record r).find r.name.value = some r ∧
    ∀ n, n ≠ r.name.value → (book.add_record r).find n = book.find n := by
  refine ⟨nodup_dictInsert _ _ _ h, ?_, ?_⟩
  · unfold AddressBook.add_record AddressBook.find
    rw [find?_dictInsert_self]
    rfl
  · intro n hn
    unfold AddressBook.add_record AddressBook.find
    rw [find?_dictInsert_other _ _ _ _ hn]

/-- An old record for John, with a phone and a birthday. -/
def oldJohn : Record := ⟨⟨"John"⟩, [⟨"1234567890"⟩], some ⟨⟨1985, 11, 2⟩⟩⟩

/-- A fresh record under the same name. -/
def newJohn : Record := ⟨⟨"John"⟩, [⟨"5555555555"⟩], none⟩

/-- Claim C6, instantiated: re-adding "John" overwrites the old record. -/
theorem C6_add_record_overwrites_witness :
    keysNodup ((AddressBook.mk [("John", oldJohn)]).add_record newJohn) ∧
    ((AddressBook.mk [("John", oldJohn)]).add_record newJohn).find "John" =
      some newJohn ∧
    ∀ n, n ≠ "John" →
      ((AddressBook.mk [("John", oldJohn)]).add_record newJohn).find n =
        (AddressBook.mk [("John", oldJohn)]).find n :=
  C6_add_record_overwrites ⟨[("John", oldJohn)]⟩ newJohn
    (by unfold keysNodup; decide)

lemma find?_eraseP_other (l : List (String × Record)) (name n : String)
    (hn : n ≠ name) :
    (l.eraseP (fun p => p.1 = name)).find? (fun p => p.1 = n) =
      l.find? (fun p => p.1 = n) := by
  induction l with
  | nil => simp
  | cons p rest ih =>
    by_cases hpk : p.1 = name
    · have hpn : ¬ p.1 = n := fun h => hn (h ▸ hpk)
      rw [List.eraseP_cons_of_pos (by simp [hpk]),
        List.find?_cons_of_neg _ (by simp [hpn])]
    · rw [List.eraseP_cons_of_neg (by simp [hpk])]
      by_cases hpn : p.1 = n
      · rw [List.find?_cons_of_pos _ (by simp [hpn]),
          List.find?_cons_of_pos _ (by simp [hpn])]
      · rw [List.find?_cons_of_neg _ (by simp [hpn]),
          List.find?_cons_of_neg _ (by simp [hpn]), ih]

lemma find?_eraseP_self (l : List (String × Record)) (name : String)
    (hnd : (l.map Prod.fst).Nodup) :
    (l.eraseP (fun p => p.1 = name)).find? (fun p => p.1 = name) = none := by
  induction l with
  | nil => simp
  | cons p rest ih =>
    rw [List.map_cons, List.nodup_cons] at hnd
    by_cases hpk : p.1 = name
    · rw [List.eraseP_cons_of_pos (by simp [hpk])]
      rw [List.find?_eq_none]
      intro x hx
      simp only [decide_eq_true_eq]
      intro hxname
      exact hnd.1 (hpk ▸ hxname ▸ List.mem_map_of_mem Prod.fst hx)
    · rw [List.eraseP_cons_of_neg (by simp [hpk]),
        List.find?_cons_of_neg _ (by simp [hpk]), ih hnd.2]

/-- Claim C9: `delete` of an absent name raises nothing and leaves the
directory unchanged; `delete` of a present name removes exactly that
entry — the name no longer resolves and every other name resolves as
before. -/
theorem C9_delete_semantics (book : AddressBook) (name : String)
    (hnd : keysNodup book) :
    (book.find name = none → book.delete name = book) ∧
    (∀ r, book.find name = some r →
      (book.delete name).find name = none ∧
      ∀ n, n ≠ name → (book.delete name).find n = book.find n) := by
  constructor
  · intro h
    have hf : book.data.find? (fun p => p.1 = name) = none := by
      cases hq : book.data.find? (fun p => p.1 = name) with
      | none => rfl
      | some v =>
        unfold AddressBook.find at h
        rw [hq] at h
        cases h
    unfold AddressBook.delete
    rw [if_neg]
    rw [List.any_eq_true]
    rintro ⟨p, hp, hpe⟩
    exact (List.find?_eq_none.1 hf p hp) hpe
  · intro r h
    have hf : ∃ p, book.data.find? (fun p => p.1 = name) = some p := by
      cases hq : book.data.find? (fun p => p.1 = name) with
      | none =>
        unfold AddressBook.find at h
        rw [hq] at h
        cases h
      | some v => exact ⟨v, rfl⟩
    obtain ⟨p, hp⟩ := hf
    have hany : book.data.any (fun p => p.1 = name) = true := by
      rw [List.any_eq_true]
      have hsat := List.find?_some hp
      exact ⟨p, List.mem_of_find?_eq_some hp, by simpa using hsat⟩
    have hdel : book.delete name = ⟨book.data.eraseP (fun p => p.1 = name)⟩ := by
      unfold AddressBook.delete
      rw [if_pos hany]
    rw [hdel]
    constructor
    · unfold AddressBook.find
      rw [find?_eraseP_self _ _ hnd]
      rfl
    · intro n hn
      unfold AddressBook.find
      rw [find?_eraseP_other _ _ _ hn]

/-! ### Date-text round-trip lemmas -/

lemma isDigit_dChar (n : Nat) (h : n < 10) : (dChar n).isDigit = true := by
  interval_cases n <;> rfl

lemma cval_dChar (n : Nat) (h : n < 10) : cval (dChar n) = n := by
  interval_cases n <;> rfl

lemma matchDay_pad2 (d : Nat) (h1 : 1 ≤ d) (h2 : d ≤ 31) (rest : List Char) :
    matchDay (pad2 d ++ rest) = some (d, rest) := by
  interval_cases d <;> rfl

lemma matchMonth_pad2 (m : Nat) (h1 : 1 ≤ m) (h2 : m ≤ 12)
    (rest : List Char) :
    matchMonth (pad2 m ++ rest) = some (m, rest) := by
  interval_cases m <;> rfl

lemma natChars_eq_pad4 (y : Nat) (h1 : 1000 ≤ y) (h2 : y ≤ 9999) :
    natChars y = pad4 y := by
  unfold natChars
  rw [if_neg (by omega), if_neg (by omega), if_neg (by omega)]

lemma matchYear4_pad4 (y : Nat) (h2 : y ≤ 9999) (rest : List Char) :
    matchYear4 (pad4 y ++ rest) = some (y, rest) := by
  have hsh : pad4 y ++ rest =
      dChar (y / 1000) :: dChar (y / 100 % 10) :: dChar (y / 10 % 10) ::
        dChar (y % 10) :: rest := by
    simp [pad4]
  rw [hsh]
  simp only [matchYear4, isDigit_dChar _ (by omega : y / 1000 < 10),
    isDigit_dChar _ (by omega : y / 100 % 10 < 10),
    isDigit_dChar _ (by omega : y / 10 % 10 < 10),
    isDigit_dChar _ (by omega : y % 10 < 10),
    cval_dChar _ (by omega : y / 1000 < 10),
    cval_dChar _ (by omega : y / 100 % 10 < 10),
    cval_dChar _ (by omega : y / 10 % 10 < 10),
    cval_dChar _ (by omega : y % 10 < 10),
    Bool.and_self, Bool.true_and, Bool.and_true, if_true]
  have harith : 1000 * (y / 1000) + 100 * (y / 100 % 10) +
      10 * (y / 10 % 10) + y % 10 = y := by omega
  rw [harith]

lemma matchYear4_pad4_nil (y : Nat) (h2 : y ≤ 9999) :
    matchYear4 (pad4 y) = some (y, []) := by
  have h := matchYear4_pad4 y h2 []
  simpa using h

/-- The spec's fixed textual pattern `DD.MM.YYYY`: exactly ten characters
— two digits, a dot, two digits, a dot, four digits. -/
def isStrictDDMMYYYY (s : String) : Bool :=
  match s.data with
  | [d1, d2, p1, m1, m2, p2, y1, y2, y3, y4] =>
    d1.isDigit && d2.isDigit && p1 = '.' && m1.isDigit && m2.isDigit &&
      p2 = '.' && y1.isDigit && y2.isDigit && y3.isDigit && y4.isDigit
  | _ => false

/-- Claim C9, instantiated: deleting the absent "Jane" is a no-op, and
deleting the present "John" removes exactly that entry. -/
theorem C9_delete_semantics_witness :
    (AddressBook.mk [("John", oldJohn)]).delete "Jane" =
      AddressBook.mk [("John", oldJohn)] ∧
    ((AddressBook.mk [("John", oldJohn)]).delete "John").find "John" = none :=
  ⟨(C9_delete_semantics ⟨[("John", oldJohn)]⟩ "Jane"
      (by unfold keysNodup; decide)).1 rfl,
   ((C9_delete_semantics ⟨[("John", oldJohn)]⟩ "John"
      (by unfold keysNodup; decide)).2 oldJohn rfl).1⟩

/-- Claim C2, counterexample — the claim fails in both directions.
Failure direction: `"1.1.1990"` is not in the fixed pattern `DD.MM.YYYY`
(one-digit day and month), yet `Birthday` construction succeeds on it,
since the `strptime` pattern also admits one-digit day and month.
Round-trip direction: `"01.01.0999"` is in the fixed pattern and denotes
a valid date, construction succeeds, but the stored date re-displays as
`"01.01.999"` (`%Y` prints the year unpadded), not the identical text. -/
theorem C2_counterexample_lenient_and_unpadded :
    (isStrictDDMMYYYY "1.1.1990" = false ∧
      Birthday.mk? "1.1.1990" = .ok ⟨⟨1990, 1, 1⟩⟩) ∧
    (isStrictDDMMYYYY "01.01.0999" = true ∧
      Birthday.mk? "01.01.0999" = .ok ⟨⟨999, 1, 1⟩⟩ ∧
      formatDate ⟨999, 1, 1⟩ = "01.01.999" ∧
      formatDate ⟨999, 1, 1⟩ ≠ "01.01.0999") :=
  ⟨⟨rfl, rfl⟩, ⟨rfl, rfl, rfl, by decide⟩⟩

/-- Success and round-trip direction of claim C2 on the strict pattern
with a year of four significant digits: construction on the rendered text
succeeds with the stored date, and that text is in the fixed pattern. -/
lemma birthday_strict_roundtrip (y m d : Nat) (hv : isValidDate y m d = true)
    (hy : 1000 ≤ y) :
    Birthday.mk? (formatDate ⟨y, m, d⟩) = .ok ⟨⟨y, m, d⟩⟩ ∧
    isStrictDDMMYYYY (formatDate ⟨y, m, d⟩) = true := by
  have hb := hv
  simp only [isValidDate, Bool.and_eq_true, decide_eq_true_eq] at hb
  obtain ⟨⟨⟨⟨⟨h1, h2⟩, h3⟩, h4⟩, h5⟩, h6⟩ := hb
  have hd31 : d ≤ 31 := le_trans h6 (daysInMonth_le31 y m)
  have hdata : (formatDate ⟨y, m, d⟩).data =
      pad2 d ++ (('.' :: pad2 m) ++ ('.' :: natChars y)) := rfl
  have hparse : strptimeDmy (formatDate ⟨y, m, d⟩).data = some (d, m, y) := by
    rw [hdata]
    simp only [strptimeDmy, matchDay_pad2 d h5 hd31, List.cons_append,
      matchDot, matchMonth_pad2 m h3 h4, natChars_eq_pad4 y hy h2,
      matchYear4_pad4_nil y h2, if_pos]
  constructor
  · simp only [Birthday.mk?, hparse, hv, if_true]
  · have hdata2 : (formatDate ⟨y, m, d⟩).data =
        [dChar (d / 10), dChar (d % 10), '.', dChar (m / 10), dChar (m % 10),
          '.', dChar (y / 1000), dChar (y / 100 % 10), dChar (y / 10 % 10),
          dChar (y % 10)] := by
      rw [hdata, natChars_eq_pad4 y hy h2]
      simp [pad2, pad4]
    simp [isStrictDDMMYYYY, hdata2,
      isDigit_dChar _ (by omega : d / 10 < 10),
      isDigit_dChar _ (by omega : d % 10 < 10),
      isDigit_dChar _ (by omega : m / 10 < 10),
      isDigit_dChar _ (by omega : m % 10 < 10),
      isDigit_dChar _ (by omega : y / 1000 < 10),
      isDigit_dChar _ (by omega : y / 100 % 10 < 10),
      isDigit_dChar _ (by omega : y / 10 % 10 < 10),
      isDigit_dChar _ (by omega : y % 10 < 10)]

/-- Claim C2, amended: for every text in the fixed pattern `DD.MM.YYYY`
with year 1000–9999 denoting a valid calendar date, construction succeeds,
stores the parsed date, and displaying it round-trips to the identical
text; every text the (lenient) `strptime` pattern rejects fails with
`InvalidDateFormat`, and so does every parsed triple denoting an
impossible calendar date. (As originally stated the claim is false in
both directions — see the counterexample.) -/
theorem C2_parse_display_contract (y m d : Nat) (s : String) :
    (isValidDate y m d = true → 1000 ≤ y →
      Birthday.mk? (formatDate ⟨y, m, d⟩) = .ok ⟨⟨y, m, d⟩⟩ ∧
      isStrictDDMMYYYY (formatDate ⟨y, m, d⟩) = true) ∧
    (strptimeDmy s.data = none →
      Birthday.mk? s = .error "Invalid date format. Use DD.MM.YYYY") ∧
    (∀ d' m' y', strptimeDmy s.data = some (d', m', y') →
      isValidDate y' m' d' = false →
      Birthday.mk? s = .error "Invalid date format. Use DD.MM.YYYY") := by
  refine ⟨fun hv hy => birthday_strict_roundtrip y m d hv hy, ?_, ?_⟩
  · intro hn
    simp only [Birthday.mk?, hn]
  · intro d' m' y' hs hval
    simp only [Birthday.mk?, hs]
    rw [if_neg]
    simp [hval]

/-- Claim C2 (amended), instantiated: round-trip at 15.06.1990, a
pattern-mismatch failure at `"x"`, and an impossible-date failure at
`"31.04.2020"` (April has 30 days). -/
theorem C2_parse_display_contract_witness :
    (Birthday.mk? (formatDate ⟨1990, 6, 15⟩) = .ok ⟨⟨1990, 6, 15⟩⟩ ∧
      isStrictDDMMYYYY (formatDate ⟨1990, 6, 15⟩) = true) ∧
    Birthday.mk? "x" = .error "Invalid date format. Use DD.MM.YYYY" ∧
    Birthday.mk? "31.04.2020" = .error "Invalid date format. Use DD.MM.YYYY" :=
  ⟨(C2_parse_display_contract 1990 6 15 "x").1 (by decide) (by omega),
   (C2_parse_display_contract 1 1 1 "x").2.1 rfl,
   (C2_parse_display_contract 1 1 1 "31.04.2020").2.2 31 4 2020 rfl rfl⟩

/-! ### Upcoming-birthday query lemmas -/

lemma upcomingLoop_ok_mem (today : Date) (days : Nat) (rs : List Record)
    (res : List UpcomingEntry) (hok : upcomingLoop today days rs = .ok res)
    (e : UpcomingEntry) :
    e ∈ res ↔
      ∃ r ∈ rs, ∃ l, upcomingEntriesFor today days r = .ok l ∧ e ∈ l := by
  induction rs generalizing res with
  | nil =>
    simp only [upcomingLoop] at hok
    cases hok
    simp
  | cons r rs ih =>
    unfold upcomingLoop at hok
    cases hf : upcomingEntriesFor today days r with
    | error msg => rw [hf] at hok; cases hok
    | ok es =>
      rw [hf] at hok
      cases hl : upcomingLoop today days rs with
      | error msg => rw [hl] at hok; cases hok
      | ok rest =>
        rw [hl] at hok
        cases hok
        constructor
        · intro he
          rcases List.mem_append.1 he with h | h
          · exact ⟨r, List.mem_cons_self r rs, es, hf, h⟩
          · obtain ⟨r', hr', l, hl', hel⟩ := (ih rest hl).1 h
            exact ⟨r', List.mem_cons_of_mem _ hr', l, hl', hel⟩
        · rintro ⟨r', hr', l, hl', hel⟩
          rcases List.mem_cons.1 hr' with h | h
          · subst h
            rw [hf] at hl'
            cases hl'
            exact List.mem_append_left _ hel
          · exact List.mem_append_right _
              ((ih rest hl).2 ⟨r', h, l, hl', hel⟩)

lemma name_of_mem_entriesFor (today : Date) (days : Nat) (r : Record)
    (l : List UpcomingEntry) (e : UpcomingEntry)
    (h : upcomingEntriesFor today days r = .ok l) (he : e ∈ l) :
    e.name = r.name.value := by
  unfold upcomingEntriesFor at h
  split at h
  · cases h
    simp at he
  · split at h
    · cases h
    · split at h
      · cases h
        rw [List.mem_singleton.1 he]
      · cases h
        simp at he

lemma upcoming_included_iff (today : Date) (days : Nat) (rs : List Record)
    (res : List UpcomingEntry) (r : Record)
    (hnd : (rs.map (fun r => r.name.value)).Nodup)
    (hok : upcomingLoop today days rs = .ok res) (hr : r ∈ rs) :
    (∃ e ∈ res, e.name = r.name.value) ↔
      ∃ b, r.birthday = some b ∧
        ∃ occ, replaceYear b.value today.year = .ok occ ∧
          0 ≤ deltaDays occ today ∧ deltaDays occ today ≤ (days : Int) := by
  constructor
  · rintro ⟨e, he, hname⟩
    obtain ⟨r', hr', l, hl, hel⟩ :=
      (upcomingLoop_ok_mem today days rs res hok e).1 he
    have hrname : r'.name.value = r.name.value := by
      rw [← name_of_mem_entriesFor today days r' l e hl hel, hname]
    have heq : r' = r := List.inj_on_of_nodup_map hnd hr' hr hrname
    subst heq
    unfold upcomingEntriesFor at hl
    split at hl
    · cases hl
      simp at hel
    · rename_i b hb
      split at hl
      · cases hl
      · rename_i occ hrep
        split at hl
        · next hcond => exact ⟨b, hb, occ, hrep, hcond⟩
        · cases hl
          simp at hel
  · rintro ⟨b, hb, occ, hrep, h0, h1⟩
    have hfor : upcomingEntriesFor today days r = .ok
        [⟨r.name.value, formatDate (if 5 ≤ weekday occ then
            addDays occ (7 - weekday occ) else occ)⟩] := by
      simp only [upcomingEntriesFor, hb, hrep]
      rw [if_pos ⟨h0, h1⟩]
    exact ⟨_, (upcomingLoop_ok_mem today days rs res hok _).2
      ⟨r, hr, _, hfor, List.mem_singleton_self _⟩, rfl⟩

/-- The weekend-shift rule as the spec words it: Saturday occurrences move
forward two days and Sunday occurrences one day, both to the following
Monday; weekday occurrences are unchanged. -/
def specCongratulation (occ : Date) : Date :=
  if weekday occ = 5 then addDays occ 2
  else if weekday occ = 6 then addDays occ 1
  else occ

lemma weekday_lt_7 (d : Date) : weekday d < 7 := by
  unfold weekday
  exact Nat.mod_lt _ (by omega)

lemma code_shift_eq_spec (occ : Date) :
    (if 5 ≤ weekday occ then addDays occ (7 - weekday occ) else occ) =
      specCongratulation occ := by
  have h7 : weekday occ < 7 := weekday_lt_7 occ
  unfold specCongratulation
  rcases Nat.lt_or_ge (weekday occ) 5 with h | h
  · rw [if_neg (by omega), if_neg (by omega), if_neg (by omega)]
  · have h56 : weekday occ = 5 ∨ weekday occ = 6 := by omega
    rcases h56 with h5 | h6
    · rw [if_pos (by omega), h5, if_pos rfl]
    · rw [if_pos (by omega), h6, if_neg (by omega), if_pos rfl]

/-- Claim C3: a record appears in the upcoming-birthday result exactly
when it has a birthday and the whole-day difference between that
birthday's this-year occurrence and today lies in `[0, windowDays]` —
so differences of exactly `0` and exactly `windowDays` are included and
`-1` and `windowDays + 1` are excluded. (Stated for a successful query
run, records keyed by distinct names.) -/
theorem C3_window_inclusion (book : AddressBook) (today : Date) (days : Nat)
    (r : Record) (res : List UpcomingEntry)
    (hnd : (book.records.map (fun r => r.name.value)).Nodup)
    (hok : book.get_upcoming_birthdays today days = .ok res)
    (hr : r ∈ book.records) :
    (∃ e ∈ res, e.name = r.name.value) ↔
      ∃ b, r.birthday = some b ∧
        ∃ occ, replaceYear b.value today.year = .ok occ ∧
          0 ≤ deltaDays occ today ∧ deltaDays occ today ≤ (days : Int) :=
  upcoming_included_iff today days book.records res r hnd hok hr

/-- A record with birthday 15.06.1990 (a Saturday occurrence in 2024). -/
def bdayJohn : Record := ⟨⟨"John"⟩, [], some ⟨⟨1990, 6, 15⟩⟩⟩

/-- A one-record directory for the query witnesses. -/
def johnBook : AddressBook := ⟨[("John", bdayJohn)]⟩

/-- Claim C3, instantiated: today 10.06.2024, birthday 15.06.1990,
window 7 — the record is included (delta is 5). -/
theorem C3_window_inclusion_witness :
    (∃ e ∈ [UpcomingEntry.mk "John" "17.06.2024"], e.name = "John") ↔
      ∃ b, bdayJohn.birthday = some b ∧
        ∃ occ, replaceYear b.value 2024 = .ok occ ∧
          0 ≤ deltaDays occ ⟨2024, 6, 10⟩ ∧
            deltaDays occ ⟨2024, 6, 10⟩ ≤ (7 : Int) :=
  C3_window_inclusion johnBook ⟨2024, 6, 10⟩ 7 bdayJohn _
    (by unfold johnBook AddressBook.records bdayJohn; decide) rfl
    (by unfold johnBook AddressBook.records; decide)

/-- Claim C4: every emitted entry carries the congratulation date of its
record's this-year occurrence under the weekend rule — unchanged on
Monday–Friday, plus two days when the occurrence falls on Saturday, plus
one day when it falls on Sunday. -/
theorem C4_weekend_shift (book : AddressBook) (today : Date) (days : Nat)
    (res : List UpcomingEntry) (e : UpcomingEntry)
    (hok : book.get_upcoming_birthdays today days = .ok res) (he : e ∈ res) :
    ∃ r ∈ book.records, ∃ b, r.birthday = some b ∧
      ∃ occ, replaceYear b.value today.year = .ok occ ∧
        e = ⟨r.name.value, formatDate (specCongratulation occ)⟩ := by
  obtain ⟨r, hr, l, hl, hel⟩ :=
    (upcomingLoop_ok_mem today days book.records res hok e).1 he
  unfold upcomingEntriesFor at hl
  split at hl
  · cases hl
    simp at hel
  · rename_i b hb
    split at hl
    · cases hl
    · rename_i occ hrep
      split at hl
      · cases hl
        refine ⟨r, hr, b, hb, occ, hrep, ?_⟩
        rw [List.mem_singleton.1 hel, code_shift_eq_spec]
      · cases hl
        simp at hel

/-- Claim C4, instantiated: 15.06.2024 is a Saturday, so the entry's
congratulation date is 17.06.2024, the following Monday. -/
theorem C4_weekend_shift_witness :
    ∃ r ∈ johnBook.records, ∃ b, r.birthday = some b ∧
      ∃ occ, replaceYear b.value 2024 = .ok occ ∧
        UpcomingEntry.mk "John" "17.06.2024" =
          ⟨r.name.value, formatDate (specCongratulation occ)⟩ :=
  C4_weekend_shift johnBook ⟨2024, 6, 10⟩ 7 _ _ rfl (by decide)

/-- Claim C7: a January birthday is never reported when today is in
December — the occurrence is computed only in today's year, so its
whole-day distance from a December today is negative and the window test
fails; the January occurrence of the following year is never considered. -/
theorem C7_year_boundary_gap (book : AddressBook) (today : Date)
    (days : Nat) (r : Record) (b : Birthday) (res : List UpcomingEntry)
    (hnd : (book.records.map (fun r => r.name.value)).Nodup)
    (hok : book.get_upcoming_birthdays today days = .ok res)
    (hr : r ∈ book.records) (hb : r.birthday = some b)
    (hbm : b.value.month = 1) (hbd1 : 1 ≤ b.value.day)
    (hbd31 : b.value.day ≤ 31) (htm : today.month = 12)
    (htd : 1 ≤ today.day) :
    ¬ ∃ e ∈ res, e.name = r.name.value := by
  intro hmem
  obtain ⟨b', hb', occ, hrep, h0, h1⟩ :=
    (upcoming_included_iff today days book.records res r hnd hok hr).1 hmem
  rw [hb] at hb'
  cases hb'
  unfold replaceYear at hrep
  split at hrep
  · cases hrep
    unfold deltaDays toOrdinal at h0
    simp only [hbm, htm] at h0
    have e1 : daysBeforeMonth today.year 1 = 0 := rfl
    have e2 : daysBeforeMonth today.year 12 =
        334 + (if 2 < 12 ∧ isLeap today.year = true then 1 else 0) := rfl
    rw [e1] at h0
    rw [e2] at h0
    split at h0 <;> omega
  · cases hrep

/-- A record with a January birthday. -/
def janJane : Record := ⟨⟨"Jane"⟩, [], some ⟨⟨1990, 1, 2⟩⟩⟩

/-- Claim C7, instantiated: today 28.12.2024, birthday 02.01.1990 — the
query returns no entry at all for Jane. -/
theorem C7_year_boundary_gap_witness :
    ¬ ∃ e ∈ ([] : List UpcomingEntry), e.name = "Jane" :=
  C7_year_boundary_gap ⟨[("Jane", janJane)]⟩ ⟨2024, 12, 28⟩ 7 janJane
    ⟨⟨1990, 1, 2⟩⟩ []
    (by unfold AddressBook.records janJane; decide) rfl
    (by unfold AddressBook.records; decide) rfl rfl (by decide) (by decide)
    rfl (by decide)

lemma upcomingLoop_error_of_feb29 (today : Date) (days : Nat)
    (rs : List Record) (r : Record) (b : Birthday) (hr : r ∈ rs)
    (hb : r.birthday = some b) (hm : b.value.month = 2)
    (hd : b.value.day = 29) (hnl : isLeap today.year = false) :
    ∃ msg, upcomingLoop today days rs = .error msg := by
  induction rs with
  | nil => cases hr
  | cons r0 rs ih =>
    rcases List.mem_cons.1 hr with h | h
    · subst h
      have hval : ¬ (isValidDate today.year b.value.month b.value.day = true) := by
        rw [hm, hd]
        simp [isValidDate, daysInMonth, hnl]
      have hfail : upcomingEntriesFor today days r =
          .error "day is out of range for month" := by
        simp only [upcomingEntriesFor, hb, replaceYear, if_neg hval]
      exact ⟨_, by unfold upcomingLoop; rw [hfail]⟩
    · cases hf : upcomingEntriesFor today days r0 with
      | error msg => exact ⟨msg, by unfold upcomingLoop; rw [hf]⟩
      | ok es =>
        obtain ⟨msg, hmsg⟩ := ih h
        exact ⟨msg, by unfold upcomingLoop; rw [hf, hmsg]⟩

/-- Claim C8, counterexample: a single record with birthday 29.02.1996
queried on today = 01.01.2025 (2025 is not a leap year) makes the whole
query fail with the uncaught `ValueError` of `date.replace`, instead of
completing under some leap-day policy. -/
theorem C8_counterexample_feb29_raises :
    (AddressBook.mk [("Fred", ⟨⟨"Fred"⟩, [], some ⟨⟨1996, 2, 29⟩⟩⟩)]).get_upcoming_birthdays
      ⟨2025, 1, 1⟩ 7 = .error "day is out of range for month" := rfl

/-- Claim C8, amended: the query is not total — whenever some record's
birthday is February 29 and today's year is not a leap year, the
`date.replace` call raises and `get_upcoming_birthdays` aborts with that
error instead of returning a result. -/
theorem C8_feb29_failure (book : AddressBook) (today : Date) (days : Nat)
    (r : Record) (b : Birthday) (hr : r ∈ book.records)
    (hb : r.birthday = some b) (hm : b.value.month = 2)
    (hd : b.value.day = 29) (hnl : isLeap today.year = false) :
    ∃ msg, book.get_upcoming_birthdays today days = .error msg :=
  upcomingLoop_error_of_feb29 today days book.records r b hr hb hm hd hnl

/-- A record with a leap-day birthday. -/
def febFred : Record := ⟨⟨"Fred"⟩, [], some ⟨⟨1996, 2, 29⟩⟩⟩

/-- Claim C8 (amended), instantiated at today = 01.01.2025. -/
theorem C8_feb29_failure_witness :
    ∃ msg, (AddressBook.mk [("Fred", febFred)]).get_upcoming_birthdays
      ⟨2025, 1, 1⟩ 7 = .error msg :=
  C8_feb29_failure ⟨[("Fred", febFred)]⟩ ⟨2025, 1, 1⟩ 7 febFred
    ⟨⟨1996, 2, 29⟩⟩ (by unfold AddressBook.records febFred; decide) rfl rfl
    rfl rfl

end ContactDir
